import Mathlib

/-!
Shallow embedding of the core of `davis-interactive-gnn-annot-training`:
the scribble codec (`src/davisinteractive/utils/scribbles.py`) and the
evaluation session (`src/davisinteractive/evaluation/service.py`),
together with theorems settling the claims about them.

Python floats are modelled as rationals, Python ints as `Int`/`Nat`,
raised exceptions as an explicit error type, and the one place where
Python object aliasing is observable (`fuse_scribbles`) as an explicit
heap of list objects.
-/

namespace DavisGnn

/-- Abstract error taxonomy of the spec, plus the raw Python failures of the
source that fall outside it (`TypeError` from `np.full` on non-integer
dimensions or from iterating `None`, `IndexError` from out-of-range numpy
indexing, `AttributeError` from `None.loc`).  `ValueError` raises map to
`invalidArgument`, the session-not-started `RuntimeError` to `invalidState`,
the two submission `RuntimeError`s to their named constructors, and the
`assert` failures of `fuse_scribbles` to `invalidArgument` (the taxonomy the
spec assigns to the fusion precondition). -/
inductive Err where
  | invalidArgument
  | invalidState
  | missingData
  | duplicateSubmission
  | outOfOrderSubmission
  | typeError
  | indexError
  | attributeError
deriving DecidableEq, Repr

/-! ## Scribble data, value model

A scribble dict `{'sequence': str, 'scribbles': [[path-dict]], 'annotated_frame': int?}`
read as a pure value: used by the functions that never mutate their input
(`is_empty`, `scribbles2mask`, `scribbles2points`). -/

/-- One path dict `{'path': [(x, y)], 'object_id': int}`; coordinates are
normalized `[0,1]` floats, modelled as rationals. -/
structure ScribblePath where
  path : List (ℚ × ℚ)
  object_id : ℤ
deriving DecidableEq, Repr

/-- A scribble dict as a value: per-frame path lists plus metadata. -/
structure ScribbleData where
  sequence : String
  scribbles : List (List ScribblePath)
  annotated_frame : Option ℕ
deriving DecidableEq, Repr

/-- Function `is_empty` (scribbles.py lines 137-145), translated literally: it builds
`has_lines = [len(s) > 0 for s in scribbles]` and returns `any(has_lines)`. -/
def is_empty (scribbles_data : ScribbleData) : Bool :=
  let scribbles := scribbles_data.scribbles
  let has_lines := scribbles.map (fun s => decide (s.length > 0))
  has_lines.any id

/-- All object ids occurring in a scribble set. -/
def objectIds (s : ScribbleData) : List ℤ :=
  s.scribbles.flatMap (fun fr => fr.map (fun p => p.object_id))

/-! ## Heap model for `fuse_scribbles`

`fuse_scribbles` (scribbles.py lines 111-134) makes a *shallow* dict copy
(`dict(scribbles_a)`) and then extends per-frame lists in place with `+=`.
To capture this observably we model the per-frame path lists as heap
objects: a `Heap` is the store of frame-list objects, and a scribble dict
holds references into it. -/

/-- The store of Python list objects holding the per-frame path lists;
a reference is an index into this store. -/
def Heap : Type := List (List ScribblePath)

instance : DecidableEq Heap := by
  unfold Heap
  infer_instance

/-- A scribble dict whose `'scribbles'` entry is a list of references to
heap-allocated frame lists. -/
structure ScribbleDict where
  sequence : String
  scribbles : List ℕ
  annotated_frame : Option ℕ
deriving DecidableEq, Repr

/-- Read a scribble dict back as a value: its per-frame path lists. -/
def framesOf (h : Heap) (d : ScribbleDict) : List (List ScribblePath) :=
  d.scribbles.map (fun r => h.getD r [])

/-- The frame loop of `fuse_scribbles` (scribbles.py lines 131-132):
iteration `i` executes `scribbles['scribbles'][i] += scribbles_b['scribbles'][i]`,
extending the frame-list object `aRefs[i]` in place with the contents of
`bRefs[i]`. -/
def fuseLoop (aRefs bRefs : List ℕ) (h : Heap) (nb_frames : ℕ) : Heap :=
  (List.range nb_frames).foldl
    (fun hh i =>
      let ri := aRefs.getD i 0
      let bi := bRefs.getD i 0
      hh.set ri (hh.getD ri [] ++ hh.getD bi []))
    h

/-- Function `fuse_scribbles` (scribbles.py lines 111-134).  The two
`assert`s guard
the fusion precondition (spec taxonomy: `InvalidArgument`); then
`scribbles = dict(scribbles_a)` copies the dict shallowly — the frame-list
references are shared with `scribbles_a` — and `fuseLoop` extends those
shared frame-list objects in place. -/
def fuse_scribbles (h : Heap) (scribbles_a scribbles_b : ScribbleDict) :
    Except Err (Heap × ScribbleDict) :=
  if scribbles_a.sequence ≠ scribbles_b.sequence then .error .invalidArgument
  else if scribbles_a.scribbles.length ≠ scribbles_b.scribbles.length then
    .error .invalidArgument
  else
    let scribbles := scribbles_a
    let nb_frames := scribbles.scribbles.length
    let h' := fuseLoop scribbles.scribbles scribbles_b.scribbles h nb_frames
    .ok (h', scribbles)

/-! ## Geometry kernel

`scribbles.py` imports `bezier_curve` and `bresenham` from
`.operations`, a file of this repository that is not under `src/`; both are
modelled from the spec's geometry-kernel section. -/

/-- Truncation of a float toward zero, as `np.ndarray.astype(np.int)`
does. -/
def truncRat (q : ℚ) : ℤ :=
  if 0 ≤ q then ⌊q⌋ else -⌊-q⌋

/-- Bernstein weight `C(n,i) t^i (1-t)^(n-i)`. -/
def bernstein (n i : ℕ) (t : ℚ) : ℚ :=
  (n.choose i : ℚ) * t ^ i * (1 - t) ^ (n - i)

/-- The point of the Bézier curve through `ctrl` at parameter `t`. -/
def bezierPoint (ctrl : List (ℚ × ℚ)) (t : ℚ) : ℚ × ℚ :=
  let n := ctrl.length - 1
  (∑ i ∈ Finset.range (n + 1), bernstein n i t * (ctrl.getD i (0, 0)).1,
   ∑ i ∈ Finset.range (n + 1), bernstein n i t * (ctrl.getD i (0, 0)).2)

/-- Modelled from the spec: `bezier_curve` of the repository's
`utils/operations.py` (not under `src/`).  "Output: an ordered sequence of
exactly N points lying on the curve that parametrically interpolates the
control points (endpoints preserved), uniformly sampled by parameter value.
Degenerate input (< 2 points) must be handled without raising: return the
input unchanged."  Realised as Bernstein-polynomial (Bézier) sampling at
`t = k/(N-1)`. -/
def bezier_curve (ctrl : List (ℚ × ℚ)) (nb_points : ℕ) : List (ℚ × ℚ) :=
  if ctrl.length < 2 then ctrl
  else (List.range nb_points).map (fun (k : ℕ) =>
    bezierPoint ctrl ((k : ℚ) / ((nb_points : ℚ) - 1)))

/-- Modelled from the spec: one segment of `bresenham` of the repository's
`utils/operations.py` (not under `src/`): "the classic integer line-drawing
algorithm", every consecutive output pair 8-connected, correct in all 8
octants, and "zero-length segments (repeated point → single point)".
Realised by rounding the uniform parametrisation of the segment at
`max |dx| |dy| + 1` steps. -/
def bresenhamSeg (p q : ℤ × ℤ) : List (ℤ × ℤ) :=
  let dx := q.1 - p.1
  let dy := q.2 - p.2
  let n := max dx.natAbs dy.natAbs
  if n = 0 then [p]
  else (List.range (n + 1)).map (fun (k : ℕ) =>
    (p.1 + round ((k : ℚ) * dx / n), p.2 + round ((k : ℚ) * dy / n)))

/-- Modelled from the spec: `bresenham` over a whole path — "the classic
integer line-drawing algorithm is applied pairwise between consecutive
input vertices and results concatenated, preserving traversal order". -/
def bresenham (pts : List (ℤ × ℤ)) : List (ℤ × ℤ) :=
  (pts.zip pts.tail).flatMap (fun pq => bresenhamSeg pq.1 pq.2)

/-! ## `scribbles2mask` (scribbles.py lines 6-71) -/

/-- The 3-D mask stack `(nb_frames, H, W)`; `val` takes the frame index and
then the row (`y`) and column (`x`) indices. -/
structure Mask3 where
  nbFrames : ℕ
  H : ℕ
  W : ℕ
  val : ℕ → ℤ → ℤ → ℤ

/-- A single-frame `(H, W)` mask, as returned for `only_annotated_frame`. -/
structure Mask2 where
  H : ℕ
  W : ℕ
  val : ℤ → ℤ → ℤ

/-- The two result shapes of `scribbles2mask`. -/
inductive MaskOut where
  | stack (m : Mask3)
  | single (m : Mask2)

/-- The numpy fancy-index assignment `m[path[:, 1], path[:, 0]] = obj_id` on
an `(H, W)` array: every point must have `-W ≤ x < W` and `-H ≤ y < H`
(else `IndexError`), negative indices wrap, and every addressed cell
receives `obj`. -/
def writePathOnFrame (H W : ℕ) (m : ℤ → ℤ → ℤ) (pts : List (ℤ × ℤ))
    (obj : ℤ) : Except Err (ℤ → ℤ → ℤ) :=
  if ∀ p ∈ pts, -(W : ℤ) ≤ p.1 ∧ p.1 < W ∧ -(H : ℤ) ≤ p.2 ∧ p.2 < H then
    .ok (pts.foldl
      (fun mm p => fun i j =>
        if i = p.2 % (H : ℤ) ∧ j = p.1 % (W : ℤ) then obj else mm i j)
      m)
  else .error .indexError

/-- The per-path pixel computation of `scribbles2mask` (lines 50-59):
optionally resample the path with `bezier_curve`, scale by
`size_array = (W-1, H-1)`, truncate to `int` (`astype(np.int)`), and
optionally rasterize with `bresenham`.  A path that is empty at the
scaling step has numpy shape `(0,)`, which cannot broadcast against the
2-element `size_array`: `path *= size_array` (line 55) raises
`ValueError` there. -/
def pathPixels (H W : ℕ) (bezier_curve_sampling : Bool) (nb_points : ℕ)
    (bresenham_ : Bool) (p : ScribblePath) : Except Err (List (ℤ × ℤ)) :=
  let path0 := p.path
  let path1 := if bezier_curve_sampling then bezier_curve path0 nb_points
    else path0
  if path1.length = 0 then .error .invalidArgument
  else
    let scaled := path1.map (fun pt =>
      (pt.1 * ((W : ℚ) - 1), pt.2 * ((H : ℚ) - 1)))
    let ipts := scaled.map (fun pt => (truncRat pt.1, truncRat pt.2))
    .ok (if bresenham_ then bresenham ipts else ipts)

/-- The per-frame loop body of `scribbles2mask` (lines 47-63), starting
from the `default_value`-filled frame and writing each path's `object_id`
at its `pathPixels`, in path order; a raise inside `pathPixels`
propagates. -/
def frameMask (H W : ℕ) (bezier_curve_sampling : Bool) (nb_points : ℕ)
    (bresenham_ : Bool) (default_value : ℤ) (sp : List ScribblePath) :
    Except Err (ℤ → ℤ → ℤ) :=
  sp.foldlM
    (fun m p =>
      match pathPixels H W bezier_curve_sampling nb_points bresenham_ p with
      | .error e => .error e
      | .ok fpts => writePathOnFrame H W m fpts p.object_id)
    (fun _ _ => default_value)

/-- Function `scribbles2mask` (scribbles.py lines 6-71).  The two `ValueError`
validations of `output_resolution` come first; `np.full` then needs integer
dimensions (a non-integer component is a Python `TypeError`); the frame
loop fills the stack; and with `only_annotated_frame` the missing-key check
raises `ValueError` and `masks[annotated_frame]` raises `IndexError` when
the index is out of range. -/
def scribbles2mask (scribbles : ScribbleData) (output_resolution : List ℚ)
    (only_annotated_frame : Bool) (bezier_curve_sampling : Bool)
    (nb_points : ℕ) (bresenham_ : Bool) (default_value : ℤ) :
    Except Err MaskOut :=
  if output_resolution.length ≠ 2 then .error .invalidArgument
  else if output_resolution.any (fun r => decide (r < 1)) then
    .error .invalidArgument
  else
    match output_resolution with
    | [h, w] =>
      if h.den = 1 ∧ w.den = 1 then
        let H := h.num.toNat
        let W := w.num.toNat
        match scribbles.scribbles.mapM
            (frameMask H W bezier_curve_sampling nb_points bresenham_
              default_value) with
        | .error e => .error e
        | .ok frames =>
          if only_annotated_frame then
            match scribbles.annotated_frame with
            | none => .error .invalidArgument
            | some annotated_frame =>
              if annotated_frame < frames.length then
                .ok (.single
                  ⟨H, W, frames.getD annotated_frame (fun _ _ => default_value)⟩)
              else .error .indexError
          else
            .ok (.stack
              ⟨frames.length, H, W,
                fun f => frames.getD f (fun _ _ => default_value)⟩)
      else .error .typeError
    | _ => .error .invalidArgument

/-- Normalized scribble coordinates: both components in `[0, 1]`. -/
def coords01 (pt : ℚ × ℚ) : Prop :=
  0 ≤ pt.1 ∧ pt.1 ≤ 1 ∧ 0 ≤ pt.2 ∧ pt.2 ≤ 1

instance : DecidablePred coords01 := fun pt => by
  unfold coords01
  infer_instance

/-- An integer pixel lying inside the `(H, W)` frame:
`0 ≤ x < W` and `0 ≤ y < H`. -/
def inBox (H W : ℕ) (p : ℤ × ℤ) : Prop :=
  0 ≤ p.1 ∧ p.1 < (W : ℤ) ∧ 0 ≤ p.2 ∧ p.2 < (H : ℤ)

/-! ## Evaluation service (`src/davisinteractive/evaluation/service.py`)

The dataset, metric and robot modules of the repository are not under
`src/`; the spec treats them as external collaborators, so they enter the
model as an explicit environment of functions (dependency injection, as the
spec's design notes describe), generic in the mask payload type `M`. -/

/-- Shape-and-contents view of the `batched_jaccard` result array.
Modelled from the spec: `batched_jaccard` lives in the repository's
`metrics` module, which is not under `src/`; the spec says it scores
predicted against ground-truth masks "with a per-frame, per-object overlap
metric ..., not averaged across objects — one score per (frame, object)
pair", so its result is a 2-D array of shape `(nb_frames, nb_objects)`. -/
structure JaccardResult where
  nb_frames : ℕ
  nb_objects : ℕ
  score : ℕ → ℕ → ℚ

/-- The collaborators consumed by `EvaluationService`, per the spec's
external-interfaces section: the dataset object (`self.davis`, whose class
is not under `src/`), the scoring function and the robot.  `M` is the
uninterpreted mask payload the service passes through. -/
structure Env (M : Type) where
  davis_sets : List (String × List String)
  davis_num_scribbles : String → ℕ
  davis_check_files : List String → Except Err Unit
  davis_load_scribble : String → ℕ → ScribbleData
  davis_load_annotations : String → M
  batched_jaccard : M → M → JaccardResult
  robot_interact : String → M → M → ScribbleData

/-- One row of the report table, with the source's column schema
(`REPORT_COLUMNS`, including the `timming` spelling). -/
structure Row where
  sequence : String
  scribble_idx : ℕ
  interaction : ℕ
  object_id : ℕ
  frame : ℕ
  jaccard : ℚ
  timming : ℚ
deriving DecidableEq, Repr

/-- The mutable fields of `EvaluationService`; `__init__` (service.py lines
22-31) leaves `sequences`, `sequences_scribble_idx` and `report` as `None`. -/
structure SessionState where
  session_started : Bool
  sequences : Option (List String)
  sequences_scribble_idx : Option (List (String × ℕ))
  report : Option (List Row)
deriving DecidableEq, Repr

/-- The state `EvaluationService.__init__` produces. -/
def initState : SessionState :=
  { session_started := false
    sequences := none
    sequences_scribble_idx := none
    report := none }

/-- Method `EvaluationService.start` (service.py lines 33-57).  The subset
check is
against `self.davis.sets`; the state fields are assigned in source order, so
a `MissingData` failure from `check_files` leaves `sequences` and the work
list already set but the report and started flag untouched. -/
def start {M : Type} (env : Env M) (st : SessionState) (subset : String) :
    Except Err (List (String × ℕ) × Option ℕ × Option ℕ) × SessionState :=
  match env.davis_sets.lookup subset with
  | none => (.error .invalidArgument, st)
  | some seqs =>
    let work := seqs.flatMap (fun s =>
      (List.range (env.davis_num_scribbles s)).map (fun i => (s, i + 1)))
    let st1 := { st with sequences := some seqs,
                         sequences_scribble_idx := some work }
    match env.davis_check_files seqs with
    | .error e => (.error e, st1)
    | .ok _ =>
      let st2 := { st1 with report := some [], session_started := true }
      (.ok (work, none, none), st2)

/-- Method `EvaluationService.get_starting_scribble` (service.py lines
59-69): the
started-flag check, then membership of `sequence` in `self.sequences`, then
membership of the pair in the work list, then delegation to
`self.davis.load_scribble`.  Iterating a still-`None` field would be a
Python `TypeError`. -/
def get_starting_scribble {M : Type} (env : Env M) (st : SessionState)
    (sequence : String) (scribble_idx : ℕ) : Except Err ScribbleData :=
  if st.session_started = false then .error .invalidState
  else
    match st.sequences with
    | none => .error .typeError
    | some seqs =>
      if sequence ∉ seqs then .error .invalidArgument
      else
        match st.sequences_scribble_idx with
        | none => .error .typeError
        | some work =>
          if (sequence, scribble_idx) ∉ work then .error .invalidArgument
          else .ok (env.davis_load_scribble sequence scribble_idx)

/-- First result of `np.meshgrid(xs, ys)` (default indexing): an array of
shape `(len ys, len xs)` whose row `i` is `xs`. -/
def meshgridFst (xs ys : List ℕ) : List (List ℕ) :=
  ys.map (fun _ => xs)

/-- Second result of `np.meshgrid(xs, ys)`: an array of shape
`(len ys, len xs)` whose row `i` is `ys[i]` repeated. -/
def meshgridSnd (xs ys : List ℕ) : List (List ℕ) :=
  ys.map (fun y => xs.map (fun _ => y))

/-- Row-major `.ravel()` of the jaccard score array. -/
def jaccardRavel (j : JaccardResult) : List ℚ :=
  ((List.range j.nb_frames).map (fun f =>
    (List.range j.nb_objects).map (fun o => j.score f o))).flatten

/-- The `uploaded_result` rows of `submit_masks` (service.py lines 94-108):
`objects_idx, frames_idx = np.meshgrid(arange(nb_objects), arange(nb_frames))`,
the three varying columns are the ravelled grids and scores, the constant
columns repeat the call arguments, and `pd.DataFrame` zips the columns into
rows positionally. -/
def uploadedRows (sequence : String) (scribble_idx : ℕ) (interaction : ℕ)
    (timming : ℚ) (j : JaccardResult) : List Row :=
  let frames_idx := List.range j.nb_frames
  let objects_idx := List.range j.nb_objects
  let objCol := (meshgridFst objects_idx frames_idx).flatten
  let frmCol := (meshgridSnd objects_idx frames_idx).flatten
  let jacCol := jaccardRavel j
  ((objCol.zip frmCol).zip jacCol).map (fun q =>
    { sequence := sequence
      scribble_idx := scribble_idx
      interaction := interaction
      object_id := q.1.1
      frame := q.1.2
      jaccard := q.2
      timming := timming })

/-- The duplicate / previous-interaction row filter of `submit_masks`:
`self.report.loc[(sequence ==) & (scribble_idx ==) & (interaction ==)]`. -/
def reportMatches (report : List Row) (sequence : String) (scribble_idx : ℕ)
    (interaction : ℕ) : List Row :=
  report.filter (fun r =>
    r.sequence == sequence && r.scribble_idx == scribble_idx &&
      r.interaction == interaction)

/-- Method `EvaluationService.submit_masks` (service.py lines 71-115).  On a
never-started session `self.report` is still `None` and the first `.loc`
access is a Python `AttributeError`.  Both ordering checks run before any
mutation; on success the new rows are concatenated onto the report and the
robot's next scribble is returned unchanged. -/
def submit_masks {M : Type} (env : Env M) (st : SessionState)
    (sequence : String) (scribble_idx : ℕ) (pred_masks : M) (timming : ℚ)
    (interaction : ℕ) : Except Err ScribbleData × SessionState :=
  match st.report with
  | none => (.error .attributeError, st)
  | some report =>
    if (reportMatches report sequence scribble_idx interaction).length > 0 then
      (.error .duplicateSubmission, st)
    else if interaction > 1 ∧
        (reportMatches report sequence scribble_idx (interaction - 1)).length
          = 0 then
      (.error .outOfOrderSubmission, st)
    else
      let gt_masks := env.davis_load_annotations sequence
      let jaccard := env.batched_jaccard gt_masks pred_masks
      let uploaded_result := uploadedRows sequence scribble_idx interaction
        timming jaccard
      let st' := { st with report := some (report ++ uploaded_result) }
      let next_scribble := env.robot_interact sequence pred_masks gt_masks
      (.ok next_scribble, st')

/-- Method `EvaluationService.get_report` (service.py lines 117-118). -/
def get_report (st : SessionState) : Option (List Row) :=
  st.report

/-! ## Concrete instances used to evaluate the model -/

/-- A one-point path labelled with object id 1. -/
def pathA : ScribblePath := { path := [(0, 0)], object_id := 1 }

/-- A one-point path labelled with object id 2. -/
def pathB : ScribblePath := { path := [(1, 1)], object_id := 2 }

/-- A heap with two single-path frame-list objects. -/
def fuseHeap0 : Heap := [[pathA], [pathB]]

/-- A one-frame scribble dict over heap object 0. -/
def fuseDictA : ScribbleDict :=
  { sequence := "s", scribbles := [0], annotated_frame := none }

/-- A one-frame scribble dict over heap object 1. -/
def fuseDictB : ScribbleDict :=
  { sequence := "s", scribbles := [1], annotated_frame := none }

/-- The heap state after `fuse_scribbles fuseHeap0 fuseDictA fuseDictB`:
object 0 has been extended in place. -/
def fuseHeap1 : Heap := [[pathA, pathB], [pathB]]

/-- A scribble set with no frames at all. -/
def noFramesScr : ScribbleData :=
  { sequence := "s", scribbles := [], annotated_frame := none }

/-- A one-frame, one-path scribble set with corner-to-corner coordinates. -/
def oneLineScr : ScribbleData :=
  { sequence := "s"
    scribbles := [[{ path := [(0, 0), (1, 1)], object_id := 3 }]]
    annotated_frame := some 0 }

/-- A scribble set whose single frame holds one path with no points at
all. -/
def emptyPathScr : ScribbleData :=
  { sequence := "s"
    scribbles := [[{ path := [], object_id := 1 }]]
    annotated_frame := none }

/-- A small concrete collaborator environment over mask payload `ℕ`:
subset `val` holds sequences `A` (2 scribbles) and `B` (1 scribble), all
files present, and the metric always reports a 2-frame, 2-object score
array. -/
def exEnv : Env ℕ :=
  { davis_sets := [("val", ["A", "B"])]
    davis_num_scribbles := fun s => if s = "A" then 2 else 1
    davis_check_files := fun _ => .ok ()
    davis_load_scribble := fun _ _ => oneLineScr
    davis_load_annotations := fun _ => 0
    batched_jaccard := fun _ _ =>
      { nb_frames := 2, nb_objects := 2, score := fun _ _ => 1 }
    robot_interact := fun _ _ _ => noFramesScr }

/-- The session state right after a successful `start exEnv initState "val"`. -/
def exStartedState : SessionState :=
  { session_started := true
    sequences := some ["A", "B"]
    sequences_scribble_idx := some [("A", 1), ("A", 2), ("B", 1)]
    report := some [] }

/-! ## Theorems settling the claims -/

/-- C2: the claim says `is_empty` returns `True` iff every frame-annotation
has zero paths; the code returns `any(has_lines)`, the exact negation.  On
a one-frame set holding one path it returns `true` (the claim requires
`false`), and on a two-frame set with no paths at all it returns `false`
(the claim requires `true`). -/
theorem C2_is_empty_inverted :
    is_empty { sequence := "s"
               scribbles := [[{ path := [(0, 0)], object_id := 1 }]]
               annotated_frame := none } = true ∧
    is_empty { sequence := "s"
               scribbles := [[], []]
               annotated_frame := none } = false := by
  constructor <;> rfl

/-- C1: the claim says `fuse_scribbles` leaves input A unchanged, but the
shallow `dict(scribbles_a)` copy shares A's frame-list objects and the
`+=` loop extends them in place: fusing the concrete pair `fuseDictA`,
`fuseDictB` turns heap `fuseHeap0` into `fuseHeap1`, where A's frame 0 has
become `[pathA, pathB]` instead of its original `[pathA]`. -/
theorem C1_fuse_mutates_input :
    fuse_scribbles fuseHeap0 fuseDictA fuseDictB = .ok (fuseHeap1, fuseDictA) ∧
    framesOf fuseHeap0 fuseDictA = [[pathA]] ∧
    framesOf fuseHeap1 fuseDictA = [[pathA, pathB]] ∧
    decide ([[pathA, pathB]] = [[pathA]]) = false := by
  refine ⟨rfl, rfl, rfl, ?_⟩
  decide

/-- C7, counterexample: the claim says `scribbles2mask` fails with
`InvalidArgument` when a component of `output_resolution` is not an
integer; on resolution `(5/2, 3)` both validation checks pass (length 2,
both components ≥ 1) and the failure only arises at `np.full`, as a
`TypeError`, not the claimed `InvalidArgument`. -/
theorem C7_noninteger_passes_validation :
    scribbles2mask noFramesScr [mkRat 5 2, 3] false false 1000 true (-1)
      = .error .typeError ∧
    decide (Err.typeError = Err.invalidArgument) = false := by
  refine ⟨rfl, ?_⟩
  decide

/-- C7 (amended): `scribbles2mask` fails with `InvalidArgument` whenever
`output_resolution` has wrong length or any component below 1, and this
validation precedes any mask allocation or write; integrality of the
components is *not* part of this validation (a non-integer component that
is ≥ 1 passes it, and the failure then arises at allocation, as a
`TypeError`). -/
theorem C7_resolution_validation (s : ScribbleData) (res : List ℚ)
    (oaf bez : Bool) (nb : ℕ) (bres : Bool) (dv : ℤ)
    (h : res.length ≠ 2 ∨ ∃ r ∈ res, r < 1) :
    scribbles2mask s res oaf bez nb bres dv = .error .invalidArgument := by
  unfold scribbles2mask
  rcases h with h | ⟨r, hr, hlt⟩
  · rw [if_pos h]
  · have hany : res.any (fun r => decide (r < 1)) = true :=
      List.any_eq_true.mpr ⟨r, hr, by simpa using hlt⟩
    by_cases hl : res.length ≠ 2
    · rw [if_pos hl]
    · rw [if_neg hl, if_pos hany]

/-- C7, witness: resolution `(0, 3)` has a component below 1 and is
rejected as `InvalidArgument`. -/
theorem C7_resolution_validation_witness :
    scribbles2mask noFramesScr [0, 3] false false 1000 true (-1)
      = .error .invalidArgument :=
  C7_resolution_validation noFramesScr [0, 3] false false 1000 true (-1)
    (Or.inr ⟨0, by decide, by decide⟩)

/-- C10: `submit_masks` never raises the `InvalidState` error that guards
`get_starting_scribble` — no branch produces it for any state — and on the
never-started initial state (whose report is still `None`) it fails with
the raw `AttributeError` of `None.loc`, leaving the state unchanged, rather
than being rejected with `InvalidState`. -/
theorem C10_no_started_check {M : Type} (env : Env M) :
    (∀ (st : SessionState) (seq : String) (idx : ℕ) (pm : M) (t : ℚ)
        (inter : ℕ),
      (submit_masks env st seq idx pm t inter).1 ≠ .error .invalidState) ∧
    (∀ (seq : String) (idx : ℕ) (pm : M) (t : ℚ) (inter : ℕ),
      submit_masks env initState seq idx pm t inter
        = (.error .attributeError, initState)) := by
  constructor
  · intro st seq idx pm t inter
    unfold submit_masks
    cases hr : st.report with
    | none => simp
    | some rep =>
      dsimp only
      split_ifs <;> simp
  · intro seq idx pm t inter
    rfl

/-- C10, witness: a concrete submission against the never-started initial
state fails with `AttributeError`, not `InvalidState`, and mutates
nothing. -/
theorem C10_no_started_check_witness :
    submit_masks exEnv initState "A" 1 0 0 1
      = (.error .attributeError, initState) :=
  (C10_no_started_check exEnv).2 "A" 1 0 0 1

/-- C5: when the subset is known to the dataset collaborator and the file
check passes, `start` returns the work list that enumerates, per sequence
in order, the scribble indices `1 .. num_scribbles` inclusive, together
with the two always-`None` placeholders; an unknown subset name fails with
`InvalidArgument` and leaves the state unchanged. -/
theorem C5_start_worklist {M : Type} (env : Env M) (st : SessionState)
    (subset : String) :
    (env.davis_sets.lookup subset = none →
      start env st subset = (.error .invalidArgument, st)) ∧
    (∀ seqs, env.davis_sets.lookup subset = some seqs →
      env.davis_check_files seqs = .ok () →
      (start env st subset).1 =
        .ok (seqs.flatMap (fun s =>
          (List.range (env.davis_num_scribbles s)).map (fun i => (s, i + 1))),
          none, none)) := by
  constructor
  · intro h
    unfold start
    rw [h]
  · intro seqs hs hc
    unfold start
    rw [hs]
    dsimp only
    rw [hc]

/-- C5, witness: on the concrete environment whose `val` subset holds
sequence `A` with 2 scribbles and `B` with 1, `start` returns the work
list `[(A,1), (A,2), (B,1)]` and the two `None` placeholders. -/
theorem C5_start_worklist_witness :
    (start exEnv initState "val").1
      = .ok ([("A", 1), ("A", 2), ("B", 1)], none, none) := by
  have h := (C5_start_worklist exEnv initState "val").2 ["A", "B"] rfl rfl
  exact h

/-- C8: `get_starting_scribble` fails with `InvalidState` whenever the
session is not started; when started, it fails with `InvalidArgument` when
the sequence is not in the active subset's list or the pair is not in the
enumerated work list; otherwise it returns the dataset collaborator's
loaded scribble unchanged. -/
theorem C8_get_starting_scribble_checks {M : Type} (env : Env M)
    (st : SessionState) (sequence : String) (scribble_idx : ℕ) :
    (st.session_started = false →
      get_starting_scribble env st sequence scribble_idx
        = .error .invalidState) ∧
    (∀ seqs, st.session_started = true → st.sequences = some seqs →
      sequence ∉ seqs →
      get_starting_scribble env st sequence scribble_idx
        = .error .invalidArgument) ∧
    (∀ seqs work, st.session_started = true → st.sequences = some seqs →
      sequence ∈ seqs → st.sequences_scribble_idx = some work →
      (sequence, scribble_idx) ∉ work →
      get_starting_scribble env st sequence scribble_idx
        = .error .invalidArgument) ∧
    (∀ seqs work, st.session_started = true → st.sequences = some seqs →
      sequence ∈ seqs → st.sequences_scribble_idx = some work →
      (sequence, scribble_idx) ∈ work →
      get_starting_scribble env st sequence scribble_idx
        = .ok (env.davis_load_scribble sequence scribble_idx)) := by
  refine ⟨?_, ?_, ?_, ?_⟩
  · intro h
    unfold get_starting_scribble
    rw [if_pos h]
  · intro seqs hon hseqs hmem
    unfold get_starting_scribble
    rw [if_neg (by simp [hon]), hseqs]
    dsimp only
    rw [if_pos hmem]
  · intro seqs work hon hseqs hmem hwork hpair
    unfold get_starting_scribble
    rw [if_neg (by simp [hon]), hseqs]
    dsimp only
    rw [if_neg (not_not_intro hmem), hwork]
    dsimp only
    rw [if_pos hpair]
  · intro seqs work hon hseqs hmem hwork hpair
    unfold get_starting_scribble
    rw [if_neg (by simp [hon]), hseqs]
    dsimp only
    rw [if_neg (not_not_intro hmem), hwork]
    dsimp only
    rw [if_neg (not_not_intro hpair)]

/-- C8, witness: on the concrete started session, `(A, 2)` is valid work
and the collaborator's scribble is returned unchanged. -/
theorem C8_get_starting_scribble_checks_witness :
    get_starting_scribble exEnv exStartedState "A" 2 = .ok oneLineScr := by
  have h := (C8_get_starting_scribble_checks exEnv exStartedState "A" 2).2.2.2
    ["A", "B"] [("A", 1), ("A", 2), ("B", 1)] rfl rfl (by decide) rfl (by decide)
  exact h

/-- C3: on a started session, `submit_masks` fails with
`DuplicateSubmission` when a report row already matches the exact
`(sequence, scribble_idx, interaction)` triple; fails with
`OutOfOrderSubmission` when `interaction > 1` and no row matches
`interaction - 1`; in both failure cases the state — report included — is
returned completely unchanged (the checks precede any append); and
`interaction = 1` needs no predecessor: absent a duplicate it succeeds and
appends. -/
theorem C3_submit_checks_and_atomicity {M : Type} (env : Env M)
    (st : SessionState) (rep : List Row)
    (_hstarted : st.session_started = true) (hrep : st.report = some rep)
    (sequence : String) (scribble_idx : ℕ) (pm : M) (t : ℚ)
    (interaction : ℕ) :
    ((reportMatches rep sequence scribble_idx interaction).length > 0 →
      submit_masks env st sequence scribble_idx pm t interaction
        = (.error .duplicateSubmission, st)) ∧
    ((reportMatches rep sequence scribble_idx interaction).length = 0 →
      interaction > 1 →
      (reportMatches rep sequence scribble_idx (interaction - 1)).length
        = 0 →
      submit_masks env st sequence scribble_idx pm t interaction
        = (.error .outOfOrderSubmission, st)) ∧
    ((reportMatches rep sequence scribble_idx interaction).length = 0 →
      interaction = 1 →
      submit_masks env st sequence scribble_idx pm t interaction
        = (.ok (env.robot_interact sequence pm
              (env.davis_load_annotations sequence)),
           { st with report := some (rep ++ uploadedRows sequence
               scribble_idx interaction t
               (env.batched_jaccard (env.davis_load_annotations sequence)
                 pm)) })) := by
  refine ⟨?_, ?_, ?_⟩
  · intro hdup
    unfold submit_masks
    rw [hrep]
    dsimp only
    rw [if_pos hdup]
  · intro hnodup hgt hprev
    unfold submit_masks
    rw [hrep]
    dsimp only
    rw [if_neg (by omega), if_pos ⟨hgt, hprev⟩]
  · intro hnodup hone
    unfold submit_masks
    rw [hrep]
    dsimp only
    rw [if_neg (by omega), if_neg (by rintro ⟨h1, -⟩; omega)]

/-- C3, witness: on the freshly started concrete session, an
`interaction = 1` submission succeeds and appends its rows. -/
theorem C3_submit_checks_and_atomicity_witness :
    submit_masks exEnv exStartedState "A" 1 0 0 1
      = (.ok noFramesScr,
         { exStartedState with report := some (uploadedRows "A" 1 1 0
             (exEnv.batched_jaccard 0 0)) }) := by
  have h := (C3_submit_checks_and_atomicity exEnv exStartedState [] rfl rfl
    "A" 1 0 0 1).2.2 rfl rfl
  exact h

/-- Unfolding one iteration of `fuseLoop`. -/
lemma fuseLoop_succ (aRefs bRefs : List ℕ) (h : Heap) (n : ℕ) :
    fuseLoop aRefs bRefs h (n + 1) =
      (fuseLoop aRefs bRefs h n).set (aRefs.getD n 0)
        ((fuseLoop aRefs bRefs h n).getD (aRefs.getD n 0) [] ++
          (fuseLoop aRefs bRefs h n).getD (bRefs.getD n 0) []) := by
  unfold fuseLoop
  rw [List.range_succ, List.foldl_append]
  rfl

/-- Reading with `getD` after `set` at a different index. -/
lemma getD_set_ne (l : Heap) (i j : ℕ) (a : List ScribblePath)
    (hij : i ≠ j) : (l.set i a).getD j [] = l.getD j [] := by
  rw [List.getD_eq_getElem?_getD, List.getD_eq_getElem?_getD,
    List.getElem?_set_ne hij]

/-- Reading with `getD` after `set` at the written index. -/
lemma getD_set_self (l : Heap) (i : ℕ) (a : List ScribblePath)
    (hi : i < l.length) : (l.set i a).getD i [] = a := by
  rw [List.getD_eq_getElem?_getD, List.getElem?_set_self hi]
  rfl

/-- In a duplicate-free list, the element at index `n` does not occur
among the first `n` elements. -/
lemma nodup_getElem_not_mem_take (l : List ℕ) (hl : l.Nodup) (n : ℕ)
    (hn : n < l.length) : l[n] ∉ l.take n := by
  have hsplit : l.take n ++ l.drop n = l := List.take_append_drop n l
  have hnodup2 : (l.take n ++ l.drop n).Nodup := by rw [hsplit]; exact hl
  have hdisj := (List.nodup_append.mp hnodup2).2.2
  intro hmem
  have hdropped : l[n] ∈ l.drop n := by
    rw [List.drop_eq_getElem_cons hn]
    exact List.mem_cons_self _ _
  exact hdisj hmem hdropped

/-- The loop invariant of `fuseLoop`: after `n` iterations the heap has the
same length, every object not referenced by the first `n` frames of A is
untouched, and the object of A's frame `i < n` has become A's original
frame `i` followed by B's original frame `i`.  Requires that A's frame
references are distinct, disjoint from B's, and in bounds. -/
lemma fuseLoop_spec (aRefs bRefs : List ℕ) (h : Heap)
    (hlen : aRefs.length = bRefs.length) (hnodup : aRefs.Nodup)
    (hdisj : ∀ r ∈ aRefs, r ∉ bRefs) (hab : ∀ r ∈ aRefs, r < h.length) :
    ∀ n, n ≤ aRefs.length →
      (fuseLoop aRefs bRefs h n).length = h.length ∧
      (∀ ρ, ρ ∉ aRefs.take n →
        (fuseLoop aRefs bRefs h n).getD ρ [] = h.getD ρ []) ∧
      (∀ i, i < n →
        (fuseLoop aRefs bRefs h n).getD (aRefs.getD i 0) []
          = h.getD (aRefs.getD i 0) [] ++ h.getD (bRefs.getD i 0) []) := by
  intro n
  induction n with
  | zero =>
    intro _
    refine ⟨rfl, fun ρ _ => rfl, fun i hi => absurd hi (by omega)⟩
  | succ n ih =>
    intro hn1
    have hn : n < aRefs.length := by omega
    obtain ⟨ihlen, ihunch, ihdone⟩ := ih (by omega)
    have hgetA : aRefs.getD n 0 = aRefs[n] := List.getD_eq_getElem aRefs 0 hn
    have hmemA : aRefs.getD n 0 ∈ aRefs := by
      rw [hgetA]; exact List.getElem_mem hn
    have hnb : n < bRefs.length := by omega
    have hgetB : bRefs.getD n 0 = bRefs[n] := List.getD_eq_getElem bRefs 0 hnb
    have hmemB : bRefs.getD n 0 ∈ bRefs := by
      rw [hgetB]; exact List.getElem_mem hnb
    have hAnotTake : aRefs.getD n 0 ∉ aRefs.take n := by
      rw [hgetA]; exact nodup_getElem_not_mem_take aRefs hnodup n hn
    have hBnotTake : bRefs.getD n 0 ∉ aRefs.take n := by
      intro hmem
      exact hdisj _ (List.take_subset n aRefs hmem) hmemB
    have hAbound : aRefs.getD n 0 < (fuseLoop aRefs bRefs h n).length := by
      rw [ihlen]; exact hab _ hmemA
    have hvalA : (fuseLoop aRefs bRefs h n).getD (aRefs.getD n 0) []
        = h.getD (aRefs.getD n 0) [] := ihunch _ hAnotTake
    have hvalB : (fuseLoop aRefs bRefs h n).getD (bRefs.getD n 0) []
        = h.getD (bRefs.getD n 0) [] := ihunch _ hBnotTake
    have hAmemTake : aRefs.getD n 0 ∈ aRefs.take (n + 1) := by
      rw [hgetA]
      have hlt : n < (aRefs.take (n + 1)).length := by
        simp only [List.length_take]
        omega
      have : (aRefs.take (n + 1))[n] = aRefs[n] := List.getElem_take _
      rw [← this]
      exact List.getElem_mem hlt
    rw [fuseLoop_succ]
    refine ⟨by rw [List.length_set]; exact ihlen, ?_, ?_⟩
    · intro ρ hρ
      have hρn : aRefs.getD n 0 ≠ ρ := by
        intro he; exact hρ (he ▸ hAmemTake)
      have hρtake : ρ ∉ aRefs.take n := by
        intro hmem
        apply hρ
        have : aRefs.take n = (aRefs.take (n + 1)).take n := by
          rw [List.take_take]
          congr 1
          omega
        rw [this] at hmem
        exact List.take_subset n _ hmem
      rw [getD_set_ne _ _ _ _ hρn]
      exact ihunch _ hρtake
    · intro i hi
      by_cases hin : i = n
      · subst hin
        rw [getD_set_self _ _ _ hAbound, hvalA, hvalB]
      · have hi' : i < n := by omega
        have hne : aRefs.getD n 0 ≠ aRefs.getD i 0 := by
          rw [hgetA, List.getD_eq_getElem aRefs 0 (by omega : i < aRefs.length)]
          intro he
          exact hin ((hnodup.getElem_inj_iff.mp he.symm))
        rw [getD_set_ne _ _ _ _ hne]
        exact ihdone i hi'

/-- C4: for a fusable pair (same sequence, equal frame counts, represented
by disjoint heap structures), `fuse_scribbles` returns a dict whose
top-level metadata is A's (it *is* the shallow copy of A, so `sequence` and
`annotated_frame` come from A) and whose per-frame content is A's original
paths followed by B's; when the sequences differ or the frame counts
differ, it fails with the fusion-precondition error (`InvalidArgument` in
the spec's taxonomy). -/
theorem C4_fuse_result (h : Heap) (a b : ScribbleDict) :
    (a.sequence = b.sequence → a.scribbles.length = b.scribbles.length →
      a.scribbles.Nodup → (∀ r ∈ a.scribbles, r ∉ b.scribbles) →
      (∀ r ∈ a.scribbles, r < h.length) →
      fuse_scribbles h a b
        = .ok (fuseLoop a.scribbles b.scribbles h a.scribbles.length, a) ∧
      (fuse_scribbles h a b).map (fun p => p.2.sequence) = .ok a.sequence ∧
      (fuse_scribbles h a b).map (fun p => p.2.annotated_frame)
        = .ok a.annotated_frame ∧
      framesOf (fuseLoop a.scribbles b.scribbles h a.scribbles.length) a
        = List.zipWith (· ++ ·) (framesOf h a) (framesOf h b)) ∧
    (a.sequence ≠ b.sequence ∨ a.scribbles.length ≠ b.scribbles.length →
      fuse_scribbles h a b = .error .invalidArgument) := by
  constructor
  · intro hseq hlen hnodup hdisj hbound
    have hok : fuse_scribbles h a b
        = .ok (fuseLoop a.scribbles b.scribbles h a.scribbles.length, a) := by
      unfold fuse_scribbles
      rw [if_neg (not_not_intro hseq), if_neg (not_not_intro hlen)]
    refine ⟨hok, by rw [hok]; rfl, by rw [hok]; rfl, ?_⟩
    obtain ⟨-, -, hdone⟩ := fuseLoop_spec a.scribbles b.scribbles h hlen
      hnodup hdisj hbound a.scribbles.length le_rfl
    apply List.ext_getElem
    · simp [framesOf, List.length_zipWith, hlen]
    · intro i h₁ h₂
      have hia : i < a.scribbles.length := by
        simpa [framesOf] using h₁
      have hib : i < b.scribbles.length := by omega
      simp only [framesOf, List.getElem_map, List.getElem_zipWith]
      rw [← List.getD_eq_getElem a.scribbles 0 hia,
        ← List.getD_eq_getElem b.scribbles 0 hib]
      exact hdone i hia
  · intro hbad
    unfold fuse_scribbles
    rcases hbad with hbad | hbad
    · rw [if_pos hbad]
    · by_cases hseq : a.sequence ≠ b.sequence
      · rw [if_pos hseq]
      · rw [if_neg hseq, if_pos hbad]

/-- C4, witness: fusing the concrete disjoint pair returns A's metadata and
the per-frame concatenations `[[pathA, pathB]]`. -/
theorem C4_fuse_result_witness :
    fuse_scribbles fuseHeap0 fuseDictA fuseDictB
      = .ok (fuseLoop fuseDictA.scribbles fuseDictB.scribbles fuseHeap0
          fuseDictA.scribbles.length, fuseDictA) ∧
    framesOf (fuseLoop fuseDictA.scribbles fuseDictB.scribbles fuseHeap0
        fuseDictA.scribbles.length) fuseDictA
      = List.zipWith (· ++ ·) (framesOf fuseHeap0 fuseDictA)
          (framesOf fuseHeap0 fuseDictB) := by
  have h := (C4_fuse_result fuseHeap0 fuseDictA fuseDictB).1 rfl rfl
    (by decide) (by decide) (by decide)
  exact ⟨h.1, h.2.2.2⟩

/-- Zipping two flattened block lists with aligned block lengths is the
flattening of the per-block zips. -/
lemma zip_flatten_map {α β γ : Type} (l : List γ) (g : γ → List α)
    (g' : γ → List β) (hlen : ∀ x, (g x).length = (g' x).length) :
    (l.map g).flatten.zip (l.map g').flatten
      = (l.map (fun x => (g x).zip (g' x))).flatten := by
  induction l with
  | nil => rfl
  | cons x xs ih =>
    simp only [List.map_cons, List.flatten_cons]
    rw [List.zip_append (hlen x), ih]

/-- Zipping a block of the ravelled meshgrid columns and scores pointwise. -/
lemma zip_const_zip_map (O : List ℕ) (f : ℕ) (sc : ℕ → ℚ) :
    (O.zip (O.map (fun _ => f))).zip (O.map sc)
      = O.map (fun o => ((o, f), sc o)) := by
  induction O with
  | nil => rfl
  | cons o os ih =>
    simp only [List.map_cons, List.zip_cons_cons]
    rw [ih]

/-- The `(frame, object_id)` pairs of `uploadedRows` enumerate, row-major,
every frame index paired with every zero-based column index of the score
array. -/
lemma uploadedRows_pairs (sequence : String) (scribble_idx interaction : ℕ)
    (t : ℚ) (j : JaccardResult) :
    (uploadedRows sequence scribble_idx interaction t j).map
        (fun r => (r.frame, r.object_id))
      = (List.range j.nb_frames).flatMap (fun f =>
          (List.range j.nb_objects).map (fun o => (f, o))) := by
  unfold uploadedRows meshgridFst meshgridSnd jaccardRavel
  dsimp only
  rw [List.map_map,
    zip_flatten_map _ _ _ (fun x => by simp),
    zip_flatten_map _ _ _ (fun x => by simp [List.length_zip]),
    List.map_flatten, List.map_map, List.flatMap_def]
  congr 1
  apply List.map_congr_left
  intro f _
  simp only [Function.comp_apply, zip_const_zip_map, List.map_map]
  rfl

/-- C9: on every successful `submit_masks` call, the appended report rows
carry as `object_id` exactly the zero-based column indices of the score
array — each column index paired with every frame index, row-major — and
not object ids read from the mask contents (all ids are `< nb_objects`
regardless of the masks). -/
theorem C9_object_ids_are_indices {M : Type} (env : Env M)
    (st : SessionState) (rep : List Row) (hrep : st.report = some rep)
    (sequence : String) (scribble_idx : ℕ) (pm : M) (t : ℚ)
    (interaction : ℕ) (sc : ScribbleData) (st' : SessionState)
    (hsub : submit_masks env st sequence scribble_idx pm t interaction
      = (.ok sc, st')) :
    st'.report = some (rep ++ uploadedRows sequence scribble_idx interaction
      t (env.batched_jaccard (env.davis_load_annotations sequence) pm)) ∧
    (uploadedRows sequence scribble_idx interaction t
        (env.batched_jaccard (env.davis_load_annotations sequence) pm)).map
          (fun r => (r.frame, r.object_id))
      = (List.range (env.batched_jaccard
            (env.davis_load_annotations sequence) pm).nb_frames).flatMap
          (fun f => (List.range (env.batched_jaccard
            (env.davis_load_annotations sequence) pm).nb_objects).map
            (fun o => (f, o))) := by
  refine ⟨?_, uploadedRows_pairs _ _ _ _ _⟩
  unfold submit_masks at hsub
  rw [hrep] at hsub
  dsimp only at hsub
  split_ifs at hsub
  · simp at hsub
  · simp at hsub
  · have h2 := congrArg Prod.snd hsub
    simp only at h2
    rw [← h2]

/-- C9, witness: on the concrete session whose metric reports a 2×2 score
array, the appended rows' `(frame, object_id)` pairs are exactly
`(0,0), (0,1), (1,0), (1,1)`. -/
theorem C9_object_ids_are_indices_witness :
    ((submit_masks exEnv exStartedState "A" 1 0 0 1).2).report
      = some ([] ++ uploadedRows "A" 1 1 0
          (exEnv.batched_jaccard (exEnv.davis_load_annotations "A") 0)) ∧
    (uploadedRows "A" 1 1 0
        (exEnv.batched_jaccard (exEnv.davis_load_annotations "A") 0)).map
          (fun r => (r.frame, r.object_id))
      = [(0, 0), (0, 1), (1, 0), (1, 1)] := by
  have h := C9_object_ids_are_indices exEnv exStartedState [] rfl "A" 1 0 0 1
    noFramesScr (submit_masks exEnv exStartedState "A" 1 0 0 1).2 rfl
  refine ⟨h.1, ?_⟩
  rw [h.2]
  rfl

/-- Rounding is monotone on the rationals. -/
lemma round_mono' {x y : ℚ} (h : x ≤ y) : round x ≤ round y := by
  rw [round_eq, round_eq]
  exact Int.floor_le_floor (by linarith)

/-- Rounding the interpolation step `k·d/n` (with `k ≤ n`) stays between
`0` and `d`. -/
lemma round_scale_between (d : ℤ) (k n : ℕ) (hk : k ≤ n) :
    min 0 d ≤ round ((k : ℚ) * d / n) ∧ round ((k : ℚ) * d / n) ≤ max 0 d := by
  rcases Nat.eq_zero_or_pos n with hn | hn
  · subst hn
    have hk0 : k = 0 := by omega
    subst hk0
    simp
  · have hnq : (0 : ℚ) < n := by exact_mod_cast hn
    have hkq : (k : ℚ) ≤ n := by exact_mod_cast hk
    rcases le_or_lt 0 d with hd | hd
    · have hdq : (0 : ℚ) ≤ (d : ℚ) := by exact_mod_cast hd
      have h0 : (0 : ℚ) ≤ (k : ℚ) * d / n := by positivity
      have h1 : (k : ℚ) * d / n ≤ d := by
        rw [div_le_iff₀ hnq]
        nlinarith
      have hr0 : (0 : ℤ) ≤ round ((k : ℚ) * d / n) := by
        have hmono := round_mono' h0
        simpa using hmono
      have hrd : round ((k : ℚ) * d / n) ≤ d := by
        have hmono := round_mono' h1
        rw [round_intCast] at hmono
        exact hmono
      constructor
      · exact le_trans (min_le_left 0 d) hr0
      · exact le_trans hrd (le_max_right 0 d)
    · have hdq : (d : ℚ) < 0 := by exact_mod_cast hd
      have h0 : (k : ℚ) * d / n ≤ 0 := by
        apply div_nonpos_of_nonpos_of_nonneg
        · nlinarith [Nat.cast_nonneg (α := ℚ) k]
        · linarith
      have h1 : (d : ℚ) ≤ (k : ℚ) * d / n := by
        rw [le_div_iff₀ hnq]
        nlinarith [Nat.cast_nonneg (α := ℚ) k]
      have hr0 : round ((k : ℚ) * d / n) ≤ 0 := by
        have hmono := round_mono' h0
        simpa using hmono
      have hrd : (d : ℤ) ≤ round ((k : ℚ) * d / n) := by
        have hmono := round_mono' h1
        rw [round_intCast] at hmono
        exact hmono
      constructor
      · exact le_trans (min_le_right 0 d) hrd
      · exact le_trans hr0 (le_max_left 0 d)

/-- Every point produced by `bresenhamSeg` lies in the bounding box of its
two endpoints. -/
lemma bresenhamSeg_between (p q : ℤ × ℤ) :
    ∀ r ∈ bresenhamSeg p q,
      min p.1 q.1 ≤ r.1 ∧ r.1 ≤ max p.1 q.1 ∧
      min p.2 q.2 ≤ r.2 ∧ r.2 ≤ max p.2 q.2 := by
  intro r hr
  unfold bresenhamSeg at hr
  dsimp only at hr
  by_cases hn : max (q.1 - p.1).natAbs (q.2 - p.2).natAbs = 0
  · rw [if_pos hn] at hr
    simp only [List.mem_singleton] at hr
    subst hr
    exact ⟨min_le_left _ _, le_max_left _ _, min_le_left _ _, le_max_left _ _⟩
  · rw [if_neg hn] at hr
    obtain ⟨k, hkmem, rfl⟩ := List.mem_map.mp hr
    have hk : k < max (q.1 - p.1).natAbs (q.2 - p.2).natAbs + 1 :=
      List.mem_range.mp hkmem
    have h1 := round_scale_between (q.1 - p.1) k
      (max (q.1 - p.1).natAbs (q.2 - p.2).natAbs) (by omega)
    have h2 := round_scale_between (q.2 - p.2) k
      (max (q.1 - p.1).natAbs (q.2 - p.2).natAbs) (by omega)
    obtain ⟨h1a, h1b⟩ := h1
    obtain ⟨h2a, h2b⟩ := h2
    refine ⟨?_, ?_, ?_, ?_⟩ <;> dsimp only <;> omega

/-- Rasterizing a path whose vertices lie inside the frame produces only
points inside the frame. -/
lemma bresenham_inBox (H W : ℕ) (pts : List (ℤ × ℤ))
    (hpts : ∀ p ∈ pts, inBox H W p) :
    ∀ r ∈ bresenham pts, inBox H W r := by
  intro r hr
  unfold bresenham at hr
  simp only [List.mem_flatMap] at hr
  obtain ⟨pq, hpq, hrseg⟩ := hr
  obtain ⟨hp1, hp2⟩ := List.of_mem_zip hpq
  have h1 := hpts pq.1 hp1
  have h2 := hpts pq.2 (List.mem_of_mem_tail hp2)
  have hb := bresenhamSeg_between pq.1 pq.2 r hrseg
  unfold inBox at h1 h2 ⊢
  omega

/-- Scaling a `[0,1]` coordinate by `W-1` and truncating lands in
`[0, W-1] ⊆ [0, W)`. -/
lemma truncRat_scale_mem (x : ℚ) (W : ℕ) (hx0 : 0 ≤ x) (hx1 : x ≤ 1)
    (hW : 1 ≤ W) :
    0 ≤ truncRat (x * ((W : ℚ) - 1)) ∧
      truncRat (x * ((W : ℚ) - 1)) < (W : ℤ) := by
  have hW1 : (0 : ℚ) ≤ (W : ℚ) - 1 := by
    have hcast : (1 : ℚ) ≤ (W : ℚ) := by exact_mod_cast hW
    linarith
  have hq0 : 0 ≤ x * ((W : ℚ) - 1) := mul_nonneg hx0 hW1
  have hq1 : x * ((W : ℚ) - 1) ≤ (W : ℚ) - 1 := by nlinarith
  unfold truncRat
  rw [if_pos hq0]
  refine ⟨Int.floor_nonneg.mpr hq0, ?_⟩
  have hfl : ⌊x * ((W : ℚ) - 1)⌋ ≤ ⌊(W : ℚ) - 1⌋ := Int.floor_le_floor hq1
  have he : ⌊(W : ℚ) - 1⌋ = (W : ℤ) - 1 := by
    rw [show ((W : ℚ) - 1) = (((W : ℤ) - 1 : ℤ) : ℚ) by push_cast; ring]
    exact Int.floor_intCast _
  omega

/-- Bernstein weights are nonnegative on `[0, 1]`. -/
lemma bernstein_nonneg (n i : ℕ) (t : ℚ) (h0 : 0 ≤ t) (h1 : t ≤ 1) :
    0 ≤ bernstein n i t := by
  unfold bernstein
  have h1t : (0 : ℚ) ≤ 1 - t := by linarith
  positivity

/-- The Bernstein weights sum to one (the binomial theorem for
`(t + (1-t))^n`). -/
lemma bernstein_sum (n : ℕ) (t : ℚ) :
    ∑ i ∈ Finset.range (n + 1), bernstein n i t = 1 := by
  calc ∑ i ∈ Finset.range (n + 1), bernstein n i t
      = ∑ i ∈ Finset.range (n + 1), t ^ i * (1 - t) ^ (n - i)
          * (n.choose i : ℚ) := by
        apply Finset.sum_congr rfl
        intro i _
        unfold bernstein
        ring
    _ = (t + (1 - t)) ^ n := (add_pow t (1 - t) n).symm
    _ = 1 := by norm_num

/-- A Bernstein-weighted combination of values in `[0,1]` stays in `[0,1]`. -/
lemma bernstein_convex_bound (n : ℕ) (t : ℚ) (h0 : 0 ≤ t) (h1 : t ≤ 1)
    (g : ℕ → ℚ) (hg : ∀ i ∈ Finset.range (n + 1), 0 ≤ g i ∧ g i ≤ 1) :
    0 ≤ ∑ i ∈ Finset.range (n + 1), bernstein n i t * g i ∧
      ∑ i ∈ Finset.range (n + 1), bernstein n i t * g i ≤ 1 := by
  constructor
  · apply Finset.sum_nonneg
    intro i hi
    exact mul_nonneg (bernstein_nonneg n i t h0 h1) (hg i hi).1
  · calc ∑ i ∈ Finset.range (n + 1), bernstein n i t * g i
        ≤ ∑ i ∈ Finset.range (n + 1), bernstein n i t := by
          apply Finset.sum_le_sum
          intro i hi
          have hb := bernstein_nonneg n i t h0 h1
          nlinarith [(hg i hi).1, (hg i hi).2]
      _ = 1 := bernstein_sum n t

/-- The uniform Bézier parameter values lie in `[0, 1]`. -/
lemma bezier_param_mem (k nb : ℕ) (hk : k < nb) :
    0 ≤ (k : ℚ) / ((nb : ℚ) - 1) ∧ (k : ℚ) / ((nb : ℚ) - 1) ≤ 1 := by
  rcases Nat.lt_or_ge nb 2 with h2 | h2
  · have hnb : nb = 1 := by omega
    subst hnb
    have hk0 : k = 0 := by omega
    subst hk0
    norm_num
  · have hd : (0 : ℚ) < (nb : ℚ) - 1 := by
      have hcast : (2 : ℚ) ≤ (nb : ℚ) := by exact_mod_cast h2
      linarith
    constructor
    · positivity
    · rw [div_le_one hd]
      have hcast : (k : ℚ) + 1 ≤ (nb : ℚ) := by exact_mod_cast hk
      linarith

/-- Resampling control points with `[0,1]` coordinates yields sample
points with `[0,1]` coordinates (convex-hull property of Bézier curves). -/
lemma bezier_curve_coords (ctrl : List (ℚ × ℚ)) (nb : ℕ)
    (hc : ∀ pt ∈ ctrl, coords01 pt) :
    ∀ pt ∈ bezier_curve ctrl nb, coords01 pt := by
  intro pt hpt
  unfold bezier_curve at hpt
  by_cases hlen : ctrl.length < 2
  · rw [if_pos hlen] at hpt
    exact hc pt hpt
  · rw [if_neg hlen] at hpt
    obtain ⟨k, hkmem, rfl⟩ := List.mem_map.mp hpt
    have hk : k < nb := List.mem_range.mp hkmem
    obtain ⟨ht0, ht1⟩ := bezier_param_mem k nb hk
    have hmem : ∀ i ∈ Finset.range (ctrl.length - 1 + 1),
        ctrl.getD i (0, 0) ∈ ctrl := by
      intro i hi
      rw [Finset.mem_range] at hi
      have hi' : i < ctrl.length := by omega
      rw [List.getD_eq_getElem ctrl (0, 0) hi']
      exact List.getElem_mem hi'
    have hgx : ∀ i ∈ Finset.range (ctrl.length - 1 + 1),
        0 ≤ (ctrl.getD i (0, 0)).1 ∧ (ctrl.getD i (0, 0)).1 ≤ 1 := by
      intro i hi
      obtain ⟨a, b, -, -⟩ := hc _ (hmem i hi)
      exact ⟨a, b⟩
    have hgy : ∀ i ∈ Finset.range (ctrl.length - 1 + 1),
        0 ≤ (ctrl.getD i (0, 0)).2 ∧ (ctrl.getD i (0, 0)).2 ≤ 1 := by
      intro i hi
      obtain ⟨-, -, a, b⟩ := hc _ (hmem i hi)
      exact ⟨a, b⟩
    have hx := bernstein_convex_bound (ctrl.length - 1) _ ht0 ht1 _ hgx
    have hy := bernstein_convex_bound (ctrl.length - 1) _ ht0 ht1 _ hgy
    exact ⟨hx.1, hx.2, hy.1, hy.2⟩

/-- Every cell of the fancy-index write fold holds either the written
object id or its previous value. -/
lemma writeFold_values (H W : ℕ) (obj : ℤ) :
    ∀ (pts : List (ℤ × ℤ)) (m : ℤ → ℤ → ℤ) (i j : ℤ),
      (pts.foldl
        (fun mm p => fun a b =>
          if a = p.2 % (H : ℤ) ∧ b = p.1 % (W : ℤ) then obj else mm a b)
        m) i j = obj ∨
      (pts.foldl
        (fun mm p => fun a b =>
          if a = p.2 % (H : ℤ) ∧ b = p.1 % (W : ℤ) then obj else mm a b)
        m) i j = m i j := by
  intro pts
  induction pts with
  | nil => exact fun m i j => Or.inr rfl
  | cons p ps ih =>
    intro m i j
    rw [List.foldl_cons]
    rcases ih (fun a b =>
      if a = p.2 % (H : ℤ) ∧ b = p.1 % (W : ℤ) then obj else m a b) i j with
      h | h
    · exact Or.inl h
    · rw [h]
      by_cases hij : i = p.2 % (H : ℤ) ∧ j = p.1 % (W : ℤ)
      · exact Or.inl (if_pos hij)
      · exact Or.inr (if_neg hij)

/-- If every point lies inside the frame, the numpy fancy-index write
succeeds, and every cell of the result holds either the written object id
or its previous value. -/
lemma writePathOnFrame_spec (H W : ℕ) (m : ℤ → ℤ → ℤ) (pts : List (ℤ × ℤ))
    (obj : ℤ) (hpts : ∀ p ∈ pts, inBox H W p) :
    ∃ m', writePathOnFrame H W m pts obj = .ok m' ∧
      ∀ i j, m' i j = obj ∨ m' i j = m i j := by
  have hvalid : ∀ p ∈ pts,
      -(W : ℤ) ≤ p.1 ∧ p.1 < W ∧ -(H : ℤ) ≤ p.2 ∧ p.2 < H := by
    intro p hp
    obtain ⟨a, b, c, d⟩ := hpts p hp
    refine ⟨by omega, b, by omega, d⟩
  unfold writePathOnFrame
  rw [if_pos hvalid]
  exact ⟨_, rfl, writeFold_values H W obj pts m⟩

/-- Coordinates of a path survive the optional Bézier resampling. -/
lemma sampled_coords (path : List (ℚ × ℚ)) (bez : Bool) (nb : ℕ)
    (hc : ∀ pt ∈ path, coords01 pt) :
    ∀ pt ∈ (if bez then bezier_curve path nb else path), coords01 pt := by
  cases bez
  · simpa using hc
  · simpa using bezier_curve_coords path nb hc

/-- The optionally resampled path is nonempty when the original path is
nonempty and, with sampling on, the sample count is positive. -/
lemma sampled_ne_nil (path : List (ℚ × ℚ)) (bez : Bool) (nb : ℕ)
    (hne : path ≠ []) (hnb : bez = true → 1 ≤ nb) :
    (if bez then bezier_curve path nb else path) ≠ [] := by
  cases bez
  · simpa using hne
  · show bezier_curve path nb ≠ []
    unfold bezier_curve
    by_cases hl : path.length < 2
    · rw [if_pos hl]
      exact hne
    · rw [if_neg hl]
      have h1 : 1 ≤ nb := hnb rfl
      intro hcontra
      have hlen := congrArg List.length hcontra
      simp only [List.length_map, List.length_range, List.length_nil] at hlen
      omega

/-- On a nonempty path with `[0,1]` coordinates (and a positive sample
count when Bézier sampling is on), the per-path pixel computation does not
hit the empty-path broadcast error, and every produced pixel lies inside
the `(H, W)` frame. -/
lemma pathPixels_spec (H W : ℕ) (bez : Bool) (nb : ℕ) (bres : Bool)
    (hH : 1 ≤ H) (hW : 1 ≤ W) (p : ScribblePath)
    (hc : ∀ pt ∈ p.path, coords01 pt) (hne : p.path ≠ [])
    (hnb : bez = true → 1 ≤ nb) :
    ∃ fpts, pathPixels H W bez nb bres p = .ok fpts ∧
      ∀ r ∈ fpts, inBox H W r := by
  unfold pathPixels
  dsimp only
  have hc1 := sampled_coords p.path bez nb hc
  have hne1 := sampled_ne_nil p.path bez nb hne hnb
  rw [if_neg (fun h => hne1 (List.length_eq_zero.mp h))]
  refine ⟨_, rfl, ?_⟩
  have hip : ∀ q ∈ ((if bez then bezier_curve p.path nb else p.path).map
      (fun pt => (pt.1 * ((W : ℚ) - 1), pt.2 * ((H : ℚ) - 1)))).map
        (fun pt => (truncRat pt.1, truncRat pt.2)), inBox H W q := by
    intro q hq
    rw [List.map_map] at hq
    obtain ⟨pt, hpt, rfl⟩ := List.mem_map.mp hq
    obtain ⟨a, b, c, d⟩ := hc1 pt hpt
    have hx := truncRat_scale_mem pt.1 W a b hW
    have hy := truncRat_scale_mem pt.2 H c d hH
    simp only [Function.comp_apply]
    exact ⟨hx.1, hx.2, hy.1, hy.2⟩
  cases bres
  · simpa using hip
  · intro r hr
    rw [if_pos rfl] at hr
    exact bresenham_inBox H W _ hip r hr

/-- The frame fold succeeds on nonempty paths with `[0,1]` coordinates
(positive sample count when Bézier sampling is on), and every cell of the
produced frame holds either its initial value or the object id of one of
the frame's paths. -/
lemma frameFold_spec (H W : ℕ) (hH : 1 ≤ H) (hW : 1 ≤ W) (bez : Bool)
    (nb : ℕ) (bres : Bool) (hnb : bez = true → 1 ≤ nb) :
    ∀ (sp : List ScribblePath) (m : ℤ → ℤ → ℤ),
      (∀ p ∈ sp, ∀ pt ∈ p.path, coords01 pt) →
      (∀ p ∈ sp, p.path ≠ []) →
      ∃ g, List.foldlM
          (fun m p =>
            (match pathPixels H W bez nb bres p with
              | Except.error e => Except.error e
              | Except.ok fpts => writePathOnFrame H W m fpts p.object_id :
              Except Err (ℤ → ℤ → ℤ)))
          m sp = .ok g ∧
        ∀ i j, g i j = m i j ∨
          g i j ∈ sp.map (fun p => p.object_id) := by
  intro sp
  induction sp with
  | nil => exact fun m _ _ => ⟨m, rfl, fun i j => Or.inl rfl⟩
  | cons p ps ih =>
    intro m hc hne
    obtain ⟨fpts, hfp, hfpbox⟩ := pathPixels_spec H W bez nb bres hH hW p
      (fun pt hpt => hc p (by simp) pt hpt) (hne p (by simp)) hnb
    obtain ⟨m1, hm1, hm1v⟩ := writePathOnFrame_spec H W m
      fpts p.object_id hfpbox
    obtain ⟨g, hg, hgv⟩ := ih m1
      (fun q hq pt hpt => hc q (by simp [hq]) pt hpt)
      (fun q hq => hne q (by simp [hq]))
    refine ⟨g, ?_, ?_⟩
    · rw [List.foldlM_cons, hfp]
      dsimp only
      rw [hm1]
      exact hg
    · intro i j
      rcases hgv i j with h | h
      · rcases hm1v i j with h2 | h2
        · exact Or.inr (by simp [h, h2])
        · exact Or.inl (by rw [h, h2])
      · exact Or.inr (by simp [h])

/-- The frame loop over all frames succeeds on a scribble set with `[0,1]`
coordinates and nonempty paths (positive sample count when Bézier sampling
is on), and every produced cell holds either `default_value` or the object
id of some path of some frame. -/
lemma framesList_spec (H W : ℕ) (hH : 1 ≤ H) (hW : 1 ≤ W) (bez : Bool)
    (nb : ℕ) (bres : Bool) (dv : ℤ) (hnb : bez = true → 1 ≤ nb) :
    ∀ (L : List (List ScribblePath)),
      (∀ sp ∈ L, ∀ p ∈ sp, ∀ pt ∈ p.path, coords01 pt) →
      (∀ sp ∈ L, ∀ p ∈ sp, p.path ≠ []) →
      ∃ frames, L.mapM (frameMask H W bez nb bres dv) = .ok frames ∧
        frames.length = L.length ∧
        ∀ g ∈ frames, ∀ i j, g i j = dv ∨
          ∃ sp ∈ L, g i j ∈ sp.map (fun p => p.object_id) := by
  intro L
  induction L with
  | nil => exact fun _ _ => ⟨[], rfl, rfl, by simp⟩
  | cons sp L ih =>
    intro hc hne
    obtain ⟨g, hg, hgv⟩ := frameFold_spec H W hH hW bez nb bres hnb sp
      (fun _ _ => dv) (fun p hp => hc sp (by simp) p hp)
      (fun p hp => hne sp (by simp) p hp)
    obtain ⟨frames, hf, hflen, hfv⟩ := ih (fun sp' h' => hc sp' (by simp [h']))
      (fun sp' h' => hne sp' (by simp [h']))
    refine ⟨g :: frames, ?_, by simp [hflen], ?_⟩
    · rw [List.mapM_cons,
        show frameMask H W bez nb bres dv sp = Except.ok g from hg, hf]
      rfl
    · intro g' hg' i j
      rcases List.mem_cons.mp hg' with rfl | hmem
      · rcases hgv i j with h | h
        · exact Or.inl h
        · exact Or.inr ⟨sp, by simp, h⟩
      · rcases hfv g' hmem i j with h | ⟨sp', hsp', h⟩
        · exact Or.inl h
        · exact Or.inr ⟨sp', by simp [hsp'], h⟩

/-- C6 (amended): for every scribble set with all path coordinates in
`[0,1]` and every path holding at least one point, and every valid output
resolution `(H, W)` (both ≥ 1), `scribbles2mask` returns a
`(numFrames, H, W)` stack — or a single `(H, W)` frame when
`only_annotated_frame` is requested and the annotated frame index is a
valid frame — in which every cell is either `default_value` or an object
id appearing in the input scribble set.  Holds for every combination of
the Bézier-sampling and Bresenham options (with the spec's own
`nb_points ≥ 1` constraint when sampling is on).  A zero-point path is
excluded: there the source raises the `ValueError` of broadcasting shape
`(0,)` against `size_array`, instead of returning an array. -/
theorem C6_toMask_shape_values (s : ScribbleData) (H W : ℕ) (hH : 1 ≤ H)
    (hW : 1 ≤ W)
    (hc : ∀ fr ∈ s.scribbles, ∀ p ∈ fr, ∀ pt ∈ p.path, coords01 pt)
    (hne : ∀ fr ∈ s.scribbles, ∀ p ∈ fr, p.path ≠ [])
    (bez : Bool) (nb : ℕ) (bres : Bool) (dv : ℤ)
    (hnb : bez = true → 1 ≤ nb) :
    (∃ m : Mask3,
      scribbles2mask s [(H : ℚ), (W : ℚ)] false bez nb bres dv
        = .ok (.stack m) ∧
      m.nbFrames = s.scribbles.length ∧ m.H = H ∧ m.W = W ∧
      ∀ f y x, m.val f y x = dv ∨ m.val f y x ∈ objectIds s) ∧
    (∀ a, s.annotated_frame = some a → a < s.scribbles.length →
      ∃ m : Mask2,
        scribbles2mask s [(H : ℚ), (W : ℚ)] true bez nb bres dv
          = .ok (.single m) ∧
        m.H = H ∧ m.W = W ∧
        ∀ y x, m.val y x = dv ∨ m.val y x ∈ objectIds s) := by
  obtain ⟨frames, hframes, hflen, hfv⟩ :=
    framesList_spec H W hH hW bez nb bres dv hnb s.scribbles hc hne
  have hnotlt1 : ¬((H : ℚ) < 1) := by
    rw [not_lt]
    exact_mod_cast hH
  have hnotlt1W : ¬((W : ℚ) < 1) := by
    rw [not_lt]
    exact_mod_cast hW
  have hany : ([(H : ℚ), (W : ℚ)].any fun r => decide (r < 1)) = false := by
    simp [hnotlt1, hnotlt1W]
  have hnumH : ((H : ℚ)).num.toNat = H := by
    rw [Rat.num_natCast]
    exact Int.toNat_natCast H
  have hnumW : ((W : ℚ)).num.toNat = W := by
    rw [Rat.num_natCast]
    exact Int.toNat_natCast W
  have hcell : ∀ g ∈ frames, ∀ i j, g i j = dv ∨ g i j ∈ objectIds s := by
    intro g hg i j
    rcases hfv g hg i j with h | ⟨sp, hsp, h⟩
    · exact Or.inl h
    · refine Or.inr ?_
      unfold objectIds
      rw [List.mem_flatMap]
      exact ⟨sp, hsp, h⟩
  have hgetD : ∀ f : ℕ, ∀ i j, (frames.getD f (fun _ _ => dv)) i j = dv ∨
      (frames.getD f (fun _ _ => dv)) i j ∈ objectIds s := by
    intro f i j
    rcases Nat.lt_or_ge f frames.length with hf | hf
    · rw [List.getD_eq_getElem frames _ hf]
      exact hcell _ (List.getElem_mem hf) i j
    · rw [List.getD_eq_default frames _ hf]
      exact Or.inl rfl
  constructor
  · have hred : scribbles2mask s [(H : ℚ), (W : ℚ)] false bez nb bres dv
        = .ok (.stack ⟨frames.length, H, W,
            fun f => frames.getD f (fun _ _ => dv)⟩) := by
      unfold scribbles2mask
      rw [if_neg (by simp), if_neg (by simp [hany])]
      try dsimp only
      rw [if_pos ⟨Rat.den_natCast H, Rat.den_natCast W⟩]
      try dsimp only
      rw [hnumH, hnumW, hframes]
      rfl
    exact ⟨_, hred, hflen, rfl, rfl, fun f y x => hgetD f y x⟩
  · intro a ha halt
    have hltf : a < frames.length := by
      rw [hflen]
      exact halt
    have hred2 : scribbles2mask s [(H : ℚ), (W : ℚ)] true bez nb bres dv
        = .ok (.single ⟨H, W, frames.getD a (fun _ _ => dv)⟩) := by
      unfold scribbles2mask
      rw [if_neg (by simp), if_neg (by simp [hany])]
      try dsimp only
      rw [if_pos ⟨Rat.den_natCast H, Rat.den_natCast W⟩]
      try dsimp only
      rw [hnumH, hnumW, hframes]
      rw [ha]
      simp [hltf]
    exact ⟨_, hred2, rfl, rfl, fun y x => hgetD a y x⟩

/-- C6, witness: a one-frame corner-to-corner scribble rasterized at
resolution `(3, 4)` with Bézier sampling (5 points) and Bresenham on. -/
theorem C6_toMask_shape_values_witness :
    ∃ m : Mask3,
      scribbles2mask oneLineScr [((3 : ℕ) : ℚ), ((4 : ℕ) : ℚ)] false true 5
          true (-1) = .ok (.stack m) ∧
      m.nbFrames = oneLineScr.scribbles.length ∧ m.H = 3 ∧ m.W = 4 ∧
      ∀ f y x, m.val f y x = -1 ∨ m.val f y x ∈ objectIds oneLineScr :=
  (C6_toMask_shape_values oneLineScr 3 4 (by decide) (by decide) (by decide)
    (by decide) true 5 true (-1) (by decide)).1

/-- C6, counterexample to the original claim: a scribble set containing a
zero-point path has all its path coordinates (vacuously) in `[0,1]`, and
resolution `(2, 3)` is valid, yet `scribbles2mask` does not return an
array of any shape: at `path *= size_array` numpy cannot broadcast the
empty path's shape `(0,)` against the 2-element `size_array` and the call
raises `ValueError`. -/
theorem C6_empty_path_raises :
    scribbles2mask emptyPathScr [(2 : ℚ), (3 : ℚ)] false false 1000 true (-1)
      = .error .invalidArgument ∧
    (scribbles2mask emptyPathScr [(2 : ℚ), (3 : ℚ)] false false 1000 true
      (-1)).isOk = false := by
  constructor <;> rfl

end DavisGnn
